import Mathlib

/-!
Verification of the HomeSpend ETL engine (`app/etl.py`) against its
natural-language specification.  The Python code is shallowly embedded:
pandas DataFrames become either a cell-level `Frame` (for `clean_data`,
which manipulates columns) or a list of typed canonical rows `Tx` (for the
aggregation steps, which operate on the canonical schema).  The pandas
`pd.to_datetime` fallback used by `parse_date` is library code outside the
repository, so it is passed in as an explicit function parameter.
-/

set_option maxHeartbeats 1000000

namespace HomeSpend

/-- A calendar date value; models Python `date` / pandas `Timestamp`
with the time of day discarded (only month/year comparisons and whole-date
ordering are used by the engine). -/
structure DateV where
  year : Int
  month : Nat
  day : Nat
  deriving DecidableEq

/-- A raw cell of a tabular input: missing (`NaN`), a string, a number, or
an already-parsed date/datetime value. -/
inductive Cell where
  | na : Cell
  | str : String → Cell
  | num : Rat → Cell
  | dateVal : DateV → Cell
  deriving DecidableEq

/-- Leap-year rule used by Python `datetime`. -/
def isLeap (y : Nat) : Bool :=
  y % 4 == 0 && (y % 100 != 0 || y % 400 == 0)

/-- Number of days in a month, as validated by `datetime.datetime`. -/
def daysInMonth (y m : Nat) : Nat :=
  if m = 2 then (if isLeap y then 29 else 28)
  else if m = 4 ∨ m = 6 ∨ m = 9 ∨ m = 11 then 30
  else 31

/-- Validity of a (year, month, day) triple per `datetime.datetime`:
years 1..9999, months 1..12, day within the month. -/
def validDate (y m d : Nat) : Bool :=
  1 ≤ y && y ≤ 9999 && 1 ≤ m && m ≤ 12 && 1 ≤ d && d ≤ daysInMonth y m

/-- Numeric value of a digit string. -/
def digitsVal (l : List Char) : Nat :=
  l.foldl (fun a c => 10 * a + (c.toNat - 48)) 0

/-- Split a list of characters on a separator character (every occurrence),
like Python `str.split(sep)` for a one-character separator. -/
def splitOnChar (c : Char) : List Char → List (List Char)
  | [] => [[]]
  | h :: t =>
    let r := splitOnChar c t
    if h = c then [] :: r
    else
      match r with
      | [] => [[h]]
      | x :: xs => (h :: x) :: xs

/-- A `%Y` field of `strptime`: exactly four digits. -/
def parseY (l : List Char) : Option Nat :=
  if l.length = 4 && l.all Char.isDigit then some (digitsVal l) else none

/-- A `%m` or `%d` field of `strptime`: one or two digits. -/
def parseMD (l : List Char) : Option Nat :=
  if (l.length = 1 || l.length = 2) && l.all Char.isDigit then some (digitsVal l)
  else none

/-- Field order of a three-part date format pattern. -/
inductive DOrder where
  | ymd : DOrder
  | dmy : DOrder
  | mdy : DOrder
  deriving DecidableEq

/-- Build a date after `datetime` range validation. -/
def mkDate (y m d : Nat) : Option DateV :=
  if validDate y m d then some ⟨(y : Int), m, d⟩ else none

/-- Model of `datetime.strptime(s, fmt)` for the three-field patterns used
by `_clean_dates` (`%Y-%m-%d`, `%d/%m/%Y`, `%m/%d/%Y`, `%d-%m-%Y`):
split on the separator, read each numeric field, validate the date. -/
def strptime3 (sep : Char) (ord : DOrder) (s : String) : Option DateV :=
  match splitOnChar sep s.data with
  | [p1, p2, p3] =>
    match ord with
    | DOrder.ymd =>
      match parseY p1, parseMD p2, parseMD p3 with
      | some y, some m, some d => mkDate y m d
      | _, _, _ => none
    | DOrder.dmy =>
      match parseMD p1, parseMD p2, parseY p3 with
      | some d, some m, some y => mkDate y m d
      | _, _, _ => none
    | DOrder.mdy =>
      match parseMD p1, parseMD p2, parseY p3 with
      | some m, some d, some y => mkDate y m d
      | _, _, _ => none
  | _ => none

/-- The fixed ordered format list of `parse_date`:
`['%Y-%m-%d', '%d/%m/%Y', '%m/%d/%Y', '%d-%m-%Y']`, first success wins. -/
def tryFormats (s : String) : Option DateV :=
  match strptime3 '-' DOrder.ymd s with
  | some d => some d
  | none =>
    match strptime3 '/' DOrder.dmy s with
    | some d => some d
    | none =>
      match strptime3 '/' DOrder.mdy s with
      | some d => some d
      | none => strptime3 '-' DOrder.dmy s

/-- Model of `parse_date` in `HomeSpendETL._clean_dates`: `NaN` stays null,
date/datetime values pass through, strings go through the fixed format list,
and everything still unresolved is handed to the `pd.to_datetime` fallback
`fb` (library code outside the repository, hence a parameter). -/
def parse_date (fb : Cell → Option DateV) (c : Cell) : Option DateV :=
  match c with
  | Cell.na => none
  | Cell.dateVal d => some d
  | Cell.str s =>
    match tryFormats s with
    | some d => some d
    | none => fb (Cell.str s)
  | Cell.num q => fb (Cell.num q)

/-- Date-cell cleaning: a successful parse becomes a date cell, a failed
parse becomes null (later dropped by `dropna`). -/
def cleanDateCell (fb : Cell → Option DateV) (c : Cell) : Cell :=
  match parse_date fb c with
  | some d => Cell.dateVal d
  | none => Cell.na

/-- Model of Python `float(s)` on the already-stripped string: optional
sign, then digits with at most one decimal point (at least one digit). -/
def parseDecimal (s : String) : Option Rat :=
  let step : List Char → Option Rat := fun l =>
    let intPart := l.takeWhile Char.isDigit
    let rest := l.dropWhile Char.isDigit
    match rest with
    | [] => if intPart.isEmpty then none else some (digitsVal intPart)
    | '.' :: frac =>
      if frac.all Char.isDigit && !(intPart.isEmpty && frac.isEmpty) then
        some ((digitsVal intPart : Rat) + (digitsVal frac : Rat) / ((10 : Rat) ^ frac.length))
      else none
    | _ => none
  match s.data with
  | '-' :: t => (step t).map (fun q => -q)
  | '+' :: t => step t
  | t => step t

/-- Model of `parse_amount` in `HomeSpendETL._clean_amounts`: missing cells
become 0, numbers pass through, strings are stripped of the currency symbol,
thousands separators and spaces then parsed (0 on failure), anything else
becomes 0. -/
def parse_amount : Cell → Rat
  | Cell.na => 0
  | Cell.num q => q
  | Cell.str s =>
    let cleaned : List Char := s.data.filter (fun ch => !(ch = '₡' || ch = ',' || ch = ' '))
    match parseDecimal (String.mk cleaned) with
    | some q => q
    | none => 0
  | Cell.dateVal _ => 0

/-- Character-list form of Python `str.strip()`. -/
def stripEnds (l : List Char) : List Char :=
  ((l.dropWhile Char.isWhitespace).reverse.dropWhile Char.isWhitespace).reverse

/-- Model of Python `str.strip()`: drop whitespace from both ends. -/
def pyStrip (s : String) : String :=
  String.mk (stripEnds s.data)

/-- Stringification of a cell by Python `str()` (only the string case is
exercised by the engine's contracts; numbers and dates get a canonical
rendering). -/
def cellStr : Cell → String
  | Cell.na => "nan"
  | Cell.str s => s
  | Cell.num q => toString q
  | Cell.dateVal d => toString d.year ++ "-" ++ toString d.month ++ "-" ++ toString d.day

/-- Model of `clean_text_value` in `HomeSpendETL._clean_text`: null becomes
the empty string, anything else is stringified and stripped. -/
def clean_text (c : Cell) : String :=
  match c with
  | Cell.na => ""
  | c => pyStrip (cellStr c)

/-- A row of a loosely-typed DataFrame: named cells in column order. -/
abbrev FRow := List (String × Cell)

/-- A loosely-typed DataFrame: a column-name list and rows of named cells. -/
structure Frame where
  cols : List String
  rows : List FRow
  deriving DecidableEq

/-- Series access `row[name]`: the first cell under that column name
(`NaN` when the column is absent from the row; the engine only reads
columns it has ensured exist). -/
def lookupCell (r : FRow) (c : String) : Cell :=
  match r.find? (fun p => p.1 == c) with
  | some p => p.2
  | none => Cell.na

/-- Model of `df.rename(columns={old: new})` restricted to one column, as
performed inside the renaming loop of `clean_data` (guarded by
`old_name in cleaned_df.columns`). -/
def renameCol (old new : String) (f : Frame) : Frame :=
  if old ∈ f.cols then
    { cols := f.cols.map (fun c => if c = old then new else c)
      rows := f.rows.map (List.map (fun p => if p.1 = old then (new, p.2) else p)) }
  else f

/-- Model of `cleaned_df[col] = np.nan` for a missing required column. -/
def ensureCol (c : String) (f : Frame) : Frame :=
  if c ∈ f.cols then f
  else { cols := f.cols ++ [c], rows := f.rows.map (fun r => r ++ [(c, Cell.na)]) }

/-- Per-row column update underlying `df[col] = df[col].apply(g)`. -/
def mapRowCol (c : String) (g : Cell → Cell) : FRow → FRow :=
  List.map (fun p => if p.1 = c then (p.1, g p.2) else p)

/-- Model of `df[col] = df[col].apply(g)`. -/
def mapCol (c : String) (g : Cell → Cell) (f : Frame) : Frame :=
  { cols := f.cols, rows := f.rows.map (mapRowCol c g) }

/-- The column-name mapping of `clean_data`, in source order. -/
def column_mapping : List (String × String) :=
  [("Fecha", "Date"), ("Descripción", "Description"), ("Descripcion", "Description"),
   ("Business", "Description"), ("Monto", "Amount"),
   ("Responsable", "Responsible"), ("Tarjeta", "Card")]

/-- The required canonical columns of `clean_data`, in source order. -/
def required_columns : List String :=
  ["Date", "Description", "Amount", "Responsible", "Card"]

/-- The text columns cleaned by `clean_data`. -/
def text_columns : List String := ["Description", "Responsible", "Card"]

/-- Keep condition of `dropna(subset=['Date', 'Amount'])`. -/
def keepNonNull (r : FRow) : Bool :=
  !(lookupCell r "Date" == Cell.na) && !(lookupCell r "Amount" == Cell.na)

/-- Keep condition of `cleaned_df[cleaned_df['Amount'] != 0]` (pandas
elementwise `!= 0`; non-numeric cells compare unequal to 0). -/
def amountNeZero (r : FRow) : Bool :=
  match lookupCell r "Amount" with
  | Cell.num q => !(q == 0)
  | _ => true

/-- The column-renaming loop of `clean_data`. -/
def renameStage (f : Frame) : Frame :=
  column_mapping.foldl (fun acc p => renameCol p.1 p.2 acc) f

/-- The required-column creation loop of `clean_data`. -/
def ensureStage (f : Frame) : Frame :=
  required_columns.foldl (fun acc c => ensureCol c acc) f

/-- The per-row effect of the three column-cleaning assignments of
`clean_data` (each `df[col] = df[col].apply(...)` maps one named cell of
every row, so the columnwise pipeline is the rowwise map of this): parse
the Date cell, parse the Amount cell, clean the text cells. -/
def rowClean (fb : Cell → Option DateV) (r : FRow) : FRow :=
  text_columns.foldl (fun acc c => mapRowCol c (fun v => Cell.str (clean_text v)) acc)
    (mapRowCol "Amount" (fun c => Cell.num (parse_amount c))
      (mapRowCol "Date" (cleanDateCell fb) r))

/-- Model of `HomeSpendETL.clean_data`: empty/None input short-circuits to
an empty DataFrame; otherwise rename known alternate columns, create the
missing required columns, clean the Date, Amount and text columns, then
drop rows with null Date/Amount and rows with zero Amount. -/
def clean_data (fb : Cell → Option DateV) (f : Frame) : Frame :=
  if f.rows.isEmpty || f.cols.isEmpty then ⟨[], []⟩
  else
    let f2 := ensureStage (renameStage f)
    { cols := f2.cols,
      rows := ((f2.rows.map (rowClean fb)).filter keepNonNull).filter amountNeZero }

/-- A canonical transaction row (the five-column schema produced by
normalization).  `responsible` is `none` for a `NaN` cell and `some s`
for a string cell, so blankness (`NaN` or empty string) is expressible. -/
structure Tx where
  date : DateV
  description : String
  amount : Rat
  responsible : Option String
  card : String
  deriving DecidableEq

/-- The ordered non-default responsible-assignment rules of
`HomeSpendETL.__init__` (dict insertion order). -/
def responsible_rules : List (String × String) :=
  [("9366", "FIORELLA INFANTE AMORE"),
   ("2081", "LUIS ESTEBAN OVIEDO MATAMOROS"),
   ("4136", "LUIS ESTEBAN OVIEDO MATAMOROS")]

/-- The default responsible label. -/
def default_responsible : String := "ALVARO FERNANDO OVIEDO MATAMOROS"

/-- Prefix test on character lists. -/
def leadMatch : List Char → List Char → Bool
  | [], _ => true
  | _ :: _, [] => false
  | a :: as, b :: bs => a == b && leadMatch as bs

/-- Python substring containment `needle in hay` on character lists. -/
def listContains (needle : List Char) : List Char → Bool
  | [] => needle.isEmpty
  | h :: t => leadMatch needle (h :: t) || listContains needle t

/-- Substring containment on strings, as Python `key in card_str`. -/
def strContains (hay needle : String) : Bool :=
  listContains needle.data hay.data

/-- First rule of an ordered rule list whose key is a substring of the
card string; the scan in `assign_responsible`. -/
def firstMatch (rules : List (String × String)) (cardStr : String) : Option String :=
  match rules.find? (fun p => strContains cardStr p.1) with
  | some p => some p.2
  | none => none

/-- Blankness test of `assign_responsible`:
`pd.isna(row['Responsible']) or row['Responsible'] == ''`. -/
def blankResp (o : Option String) : Bool :=
  match o with
  | none => true
  | some s => s == ""

/-- Model of `assign_responsible` (inner function of
`apply_responsible_rules`): keep a non-blank responsible; otherwise strip
the card string and scan the ordered rules, defaulting when none match. -/
def assign_responsible (r : Tx) : String :=
  if blankResp r.responsible then
    match firstMatch responsible_rules (pyStrip r.card) with
    | some v => v
    | none => default_responsible
  else r.responsible.getD ""

/-- Row transform of `processed_df['Responsible'] = processed_df.apply(assign_responsible, axis=1)`. -/
def assignRow (r : Tx) : Tx :=
  { r with responsible := some (assign_responsible r) }

/-- Model of `HomeSpendETL.apply_responsible_rules`. -/
def apply_responsible_rules (t : List Tx) : List Tx :=
  if t.isEmpty then t else t.map assignRow

/-- The fixed-expense template of `HomeSpendETL.__init__`
(description, amount); responsible is always "Gastos Fijos" and card
"FIXED", date unbound until injection. -/
def fixed_expenses : List (String × Rat) :=
  [("Vivienda", 430000), ("Vehículo", 230000), ("Donaciones", 240000)]

/-- A synthesized fixed-expense row. -/
def fixedRow (d : DateV) (desc : String) (amt : Rat) : Tx :=
  { date := d, description := desc, amount := amt,
    responsible := some "Gastos Fijos", card := "FIXED" }

/-- Membership test of the idempotence guard of `inject_fixed_expenses`:
date in the target month/year and responsible equal to "Gastos Fijos". -/
def isFixedInMonth (m : Nat) (y : Int) (r : Tx) : Bool :=
  r.date.month == m && r.date.year == y && r.responsible == some "Gastos Fijos"

/-- Date order used to model `sort_values('Date')`. -/
def dateLE (a b : DateV) : Prop :=
  a.year < b.year ∨ (a.year = b.year ∧
    (a.month < b.month ∨ (a.month = b.month ∧ a.day ≤ b.day)))

/-- Row order by date. -/
def txLE (a b : Tx) : Prop := dateLE a.date b.date

instance : DecidableRel dateLE := fun a b => by
  unfold dateLE; infer_instance

instance : DecidableRel txLE := fun a b => by
  unfold txLE; infer_instance

instance : IsTotal Tx txLE := by
  constructor; intro a b; unfold txLE dateLE; omega

instance : IsTrans Tx txLE := by
  constructor; intro a b c; unfold txLE dateLE; omega

/-- The three rows synthesized for a target month. -/
def fixedRowsFor (m : Nat) (y : Int) : List Tx :=
  fixed_expenses.map (fun e => fixedRow ⟨y, m, 1⟩ e.1 e.2)

/-- Model of `HomeSpendETL.inject_fixed_expenses` with an explicit target
(the Python default fills the target from the current wall-clock month,
which the caller supplies here): skip when a "Gastos Fijos" row already
exists in the target month of a non-empty table; otherwise synthesize the
three template rows dated the first of the month, return just them for an
empty table, else append and re-sort by date. -/
def inject_fixed_expenses (m : Nat) (y : Int) (t : List Tx) : List Tx :=
  if !t.isEmpty && t.any (isFixedInMonth m y) then t
  else
    let fixedRows := fixedRowsFor m y
    if t.isEmpty then fixedRows
    else List.insertionSort txLE (t ++ fixedRows)

/-- Month/year membership test used by the KPI subsets. -/
def inMonth (m : Nat) (y : Int) (r : Tx) : Bool :=
  r.date.month == m && r.date.year == y

/-- Total amount of the rows of a month. -/
def monthTotal (m : Nat) (y : Int) (t : List Tx) : Rat :=
  ((t.filter (inMonth m y)).map Tx.amount).sum

/-- Previous month with year rollover, as computed in `calculate_kpis`. -/
def prevMonth (m : Nat) : Nat := if m > 1 then m - 1 else 12

/-- Year of the previous month, as computed in `calculate_kpis`. -/
def prevYear (m : Nat) (y : Int) : Int := if m > 1 then y else y - 1

/-- The month-delta edge-case ladder of `calculate_kpis`. -/
def monthDelta (prevTotal curTotal : Rat) : Rat :=
  if prevTotal > 0 then (curTotal - prevTotal) / prevTotal * 100
  else if prevTotal = 0 ∧ curTotal > 0 then 100
  else if prevTotal = 0 ∧ curTotal = 0 then 0
  else -100

/-- Sum of amounts grouped by a string key, keys sorted ascending
(pandas `groupby(sort=True).sum()`). -/
def groupSum (key : Tx → String) (l : List Tx) : List (String × Rat) :=
  (List.insertionSort (· ≤ ·) (l.map key).dedup).map
    (fun k => (k, ((l.filter (fun r => key r == k)).map Tx.amount).sum))

/-- The KPI summary returned by `calculate_kpis`. -/
structure KPIs where
  total_amount : Rat
  transaction_count : Nat
  average_ticket : Rat
  month_delta : Rat
  top_merchants : List (String × Rat)
  spending_by_responsible : List (String × Rat)
  deriving DecidableEq

/-- Descending order on summed amounts for `sort_values(ascending=False)`. -/
def amtGE (a b : String × Rat) : Prop := b.2 ≤ a.2

instance : DecidableRel amtGE := fun a b => by
  unfold amtGE; infer_instance

/-- Model of `HomeSpendETL.calculate_kpis` with the wall-clock reference
month/year passed explicitly (`datetime.now(self.timezone)` in source):
empty table short-circuits to zeroed KPIs; otherwise totals, delta,
grouped summaries and average ticket over the current-month subset.
Rows with a `NaN` responsible are excluded from the responsible grouping
(pandas `groupby` drops `NaN` keys). -/
def calculate_kpis (nowM : Nat) (nowY : Int) (t : List Tx) : KPIs :=
  if t.isEmpty then
    { total_amount := 0, transaction_count := 0, average_ticket := 0,
      month_delta := 0, top_merchants := [], spending_by_responsible := [] }
  else
    let cur := t.filter (inMonth nowM nowY)
    let curTotal := monthTotal nowM nowY t
    let prevTotal := monthTotal (prevMonth nowM) (prevYear nowM nowY) t
    { total_amount := curTotal,
      transaction_count := cur.length,
      average_ticket := if cur.length > 0 then curTotal / (cur.length : Rat) else 0,
      month_delta := monthDelta prevTotal curTotal,
      top_merchants :=
        (List.insertionSort amtGE (groupSum Tx.description cur)).take 10,
      spending_by_responsible :=
        groupSum (fun r => r.responsible.getD "")
          (cur.filter (fun r => r.responsible.isSome)) }

/-- Forgetting the responsible column of a row (used to state that
assignment touches nothing but that column). -/
def eraseResp (r : Tx) : Tx := { r with responsible := none }

/-- A `pd.to_datetime` fallback that always fails, for concrete runs. -/
def noFallback : Cell → Option DateV := fun _ => none

/-- A well-formed input frame carrying an unrecognized extra column
"Foo" next to valid canonical data. -/
def frameWithExtra : Frame :=
  { cols := ["Date", "Description", "Amount", "Responsible", "Card", "Foo"]
    rows := [[("Date", Cell.str "2024-03-01"), ("Description", Cell.str " shop "),
              ("Amount", Cell.num 5000), ("Responsible", Cell.str "A"),
              ("Card", Cell.str "9366"), ("Foo", Cell.num 1)]] }

/-- An input frame whose rows carry amounts that parse to zero (a missing
cell, an unparseable string, a literal zero) next to one valid row. -/
def frameWithZeros : Frame :=
  { cols := ["Fecha", "Monto"]
    rows := [[("Fecha", Cell.str "2024-03-01"), ("Monto", Cell.na)],
             [("Fecha", Cell.str "2024-03-02"), ("Monto", Cell.str "abc")],
             [("Fecha", Cell.str "2024-03-03"), ("Monto", Cell.num 0)],
             [("Fecha", Cell.str "2024-03-04"), ("Monto", Cell.str "₡7,000")]] }

/-- Well-formedness of a frame: every row has exactly the frame's columns,
in order (what a real DataFrame guarantees by construction). -/
def WFframe (f : Frame) : Prop :=
  ∀ r ∈ f.rows, r.map Prod.fst = f.cols

/-- A canonical table holding one ordinary March 2024 transaction. -/
def sampleMarch : List Tx :=
  [⟨⟨2024, 3, 10⟩, "groceries", 12000, some "A", "1111"⟩]

/-- A canonical table holding only one of the three fixed expenses for
March 2024 (dated mid-month). -/
def partialFixedTable : List Tx := [fixedRow ⟨2024, 3, 5⟩ "Vivienda" 430000]

/-- A table with one April 2024 row of amount 50000. -/
def aprilOnly : List Tx := [⟨⟨2024, 4, 1⟩, "a", 50000, some "X", "c"⟩]

/-- A table with one January 2024 row (neither March nor April 2024). -/
def janOnly : List Tx := [⟨⟨2024, 1, 1⟩, "a", 10, some "X", "c"⟩]

/-- A table with 100000 in March 2024 and 150000 in April 2024. -/
def marchApril : List Tx :=
  [⟨⟨2024, 3, 1⟩, "a", 100000, some "X", "c"⟩,
   ⟨⟨2024, 4, 1⟩, "b", 150000, some "X", "c"⟩]

/-- The normalized row that `clean_data` produces from `frameWithExtra`. -/
def cleanedExtraRow : FRow :=
  [("Date", Cell.dateVal ⟨2024, 3, 1⟩), ("Description", Cell.str "shop"),
   ("Amount", Cell.num 5000), ("Responsible", Cell.str "A"),
   ("Card", Cell.str "9366"), ("Foo", Cell.num 1)]

/-- The single surviving normalized row of `frameWithZeros`. -/
def cleanedZeroRow : FRow :=
  [("Date", Cell.dateVal ⟨2024, 3, 4⟩), ("Amount", Cell.num 7000),
   ("Description", Cell.str ""), ("Responsible", Cell.str ""),
   ("Card", Cell.str "")]

/-! ### Helper lemmas -/

theorem dropWhile_idem {α : Type} (p : α → Bool) (l : List α) :
    (l.dropWhile p).dropWhile p = l.dropWhile p := by
  induction l with
  | nil => rfl
  | cons a t ih =>
    by_cases h : p a
    · simpa [List.dropWhile_cons, h] using ih
    · simp [List.dropWhile_cons, h]

theorem stripEnds_prefix (l : List Char) : stripEnds l <+: l.dropWhile Char.isWhitespace := by
  unfold stripEnds
  have h := List.dropWhile_suffix (l := (l.dropWhile Char.isWhitespace).reverse)
    Char.isWhitespace
  have := List.reverse_prefix.mpr h
  simpa using this

theorem stripEnds_idem (l : List Char) : stripEnds (stripEnds l) = stripEnds l := by
  have hA : (stripEnds l).dropWhile Char.isWhitespace = stripEnds l := by
    cases h2 : stripEnds l with
    | nil => rfl
    | cons a t =>
      have hpre := stripEnds_prefix l
      rw [h2] at hpre
      have hne : l.dropWhile Char.isWhitespace ≠ [] := hpre.ne_nil (by simp)
      have hhead := hpre.head (by simp)
      have hfalse := List.head_dropWhile_not Char.isWhitespace l hne
      rw [List.head_cons] at hhead
      rw [← hhead] at hfalse
      simp [List.dropWhile_cons, hfalse]
  show ((((stripEnds l).dropWhile Char.isWhitespace).reverse.dropWhile
      Char.isWhitespace).reverse) = stripEnds l
  rw [hA]
  conv_lhs => rw [show (stripEnds l).reverse =
    ((l.dropWhile Char.isWhitespace).reverse).dropWhile Char.isWhitespace by
      unfold stripEnds; rw [List.reverse_reverse]]
  rw [dropWhile_idem]
  unfold stripEnds
  rfl

theorem pyStrip_idem (s : String) : pyStrip (pyStrip s) = pyStrip s := by
  unfold pyStrip
  simp [stripEnds_idem]

theorem clean_text_trimmed (c : Cell) : pyStrip (clean_text c) = clean_text c := by
  cases c with
  | na => rfl
  | str s => exact pyStrip_idem s
  | num q => exact pyStrip_idem _
  | dateVal d => exact pyStrip_idem _

theorem find?_of_first {α : Type} (p : α → Bool) :
    ∀ (l : List α) (n : Nat) (h : n < l.length),
      p (l.get ⟨n, h⟩) = true → (∀ x ∈ l.take n, p x = false) →
      l.find? p = some (l.get ⟨n, h⟩)
  | a :: t, 0, _ => by
    intro hp _
    simpa using List.find?_cons_of_pos t hp
  | a :: t, n + 1, h => by
    intro hp hprev
    have pa : p a = false := hprev a (by simp)
    rw [List.find?_cons_of_neg t (by simp [pa])]
    exact find?_of_first p t n (by simpa using h) hp
      (fun x hx => hprev x (by simp [List.take_succ_cons]; right; exact hx))

theorem assign_ne_empty (r : Tx) : assign_responsible r ≠ "" := by
  unfold assign_responsible
  by_cases hb : blankResp r.responsible
  · rw [if_pos hb]
    cases hf : firstMatch responsible_rules (pyStrip r.card) with
    | none => decide
    | some v =>
      unfold firstMatch at hf
      cases hfind : List.find? (fun p => strContains (pyStrip r.card) p.1)
          responsible_rules with
      | none => rw [hfind] at hf; cases hf
      | some p =>
        rw [hfind] at hf
        have hmem := List.mem_of_find?_eq_some hfind
        have hvals : ∀ q ∈ responsible_rules, q.2 ≠ "" := by decide
        have := hvals p hmem
        cases hf
        simpa using this
  · rw [if_neg hb]
    cases ho : r.responsible with
    | none => rw [ho] at hb; simp [blankResp] at hb
    | some s =>
      rw [ho] at hb
      simp only [blankResp] at hb
      simpa using hb

theorem assignRow_eq_self (r : Tx) (h : blankResp r.responsible = false) :
    assignRow r = r := by
  cases r with
  | mk d desc a o c =>
    cases o with
    | none => simp [blankResp] at h
    | some s =>
      simp only [blankResp, beq_eq_false_iff_ne, ne_eq] at h
      simp [assignRow, assign_responsible, blankResp, h]

theorem assignRow_idem (r : Tx) : assignRow (assignRow r) = assignRow r := by
  apply assignRow_eq_self
  simp only [assignRow]
  simp [blankResp, assign_ne_empty r]

theorem find?_mapRowCol_self (c : String) (g : Cell → Cell) (r : FRow) :
    (mapRowCol c g r).find? (fun p => p.1 == c)
      = (r.find? (fun p => p.1 == c)).map (fun p => (p.1, g p.2)) := by
  induction r with
  | nil => rfl
  | cons p t ih =>
    unfold mapRowCol
    simp only [List.map_cons]
    by_cases h : p.1 = c
    · have hb : (p.1 == c) = true := by simpa using h
      simp only [if_pos h, List.find?_cons, hb]
      rfl
    · have hb : (p.1 == c) = false := by simpa using h
      simp only [if_neg h, List.find?_cons, hb]
      exact ih

theorem find?_mapRowCol_other (c c' : String) (hne : c' ≠ c) (g : Cell → Cell) (r : FRow) :
    (mapRowCol c g r).find? (fun p => p.1 == c') = r.find? (fun p => p.1 == c') := by
  induction r with
  | nil => rfl
  | cons p t ih =>
    unfold mapRowCol
    simp only [List.map_cons]
    have hfst : (if p.1 = c then (p.1, g p.2) else p).1 = p.1 := by
      split <;> rfl
    simp only [List.find?_cons, hfst]
    by_cases hp : (p.1 == c') = true
    · simp only [hp]
      have hpc : p.1 = c' := by simpa using hp
      have hnc : ¬(p.1 = c) := fun hh => hne (hpc ▸ hh ▸ rfl)
      rw [if_neg hnc]
    · simp only [Bool.not_eq_true] at hp
      simp only [hp]
      exact ih

theorem lookup_mapRowCol_other (c c' : String) (hne : c' ≠ c) (g : Cell → Cell) (r : FRow) :
    lookupCell (mapRowCol c g r) c' = lookupCell r c' := by
  unfold lookupCell
  rw [find?_mapRowCol_other c c' hne g r]

theorem lookup_mapRowCol_self_none (c : String) (g : Cell → Cell) (r : FRow)
    (h : r.find? (fun p => p.1 == c) = none) :
    lookupCell (mapRowCol c g r) c = Cell.na := by
  unfold lookupCell
  rw [find?_mapRowCol_self, h]
  rfl

theorem lookup_mapRowCol_self_some (c : String) (g : Cell → Cell) (r : FRow)
    (p : String × Cell) (h : r.find? (fun p => p.1 == c) = some p) :
    lookupCell (mapRowCol c g r) c = g p.2 := by
  unfold lookupCell
  rw [find?_mapRowCol_self, h]
  rfl

theorem map_fst_mapRowCol (c : String) (g : Cell → Cell) (r : FRow) :
    (mapRowCol c g r).map Prod.fst = r.map Prod.fst := by
  unfold mapRowCol
  rw [List.map_map]
  apply List.map_congr_left
  intro p _
  by_cases h : p.1 = c <;> simp [h]

theorem find?_of_mem_fst (r : FRow) (c : String) (h : c ∈ r.map Prod.fst) :
    ∃ p, r.find? (fun p => p.1 == c) = some p := by
  cases hfind : r.find? (fun p => p.1 == c) with
  | some p => exact ⟨p, rfl⟩
  | none =>
    exfalso
    obtain ⟨p, hp, hfst⟩ := List.mem_map.mp h
    exact absurd (by simp [hfst] : (fun p => p.1 == c) p = true)
      (List.find?_eq_none.mp hfind p hp)

theorem rowClean_eq (fb : Cell → Option DateV) (r : FRow) :
    rowClean fb r = mapRowCol "Card" (fun v => Cell.str (clean_text v))
      (mapRowCol "Responsible" (fun v => Cell.str (clean_text v))
        (mapRowCol "Description" (fun v => Cell.str (clean_text v))
          (mapRowCol "Amount" (fun c => Cell.num (parse_amount c))
            (mapRowCol "Date" (cleanDateCell fb) r)))) := rfl

theorem lookup_rowClean_date (fb : Cell → Option DateV) (r : FRow) :
    lookupCell (rowClean fb r) "Date" = Cell.na
    ∨ ∃ d, lookupCell (rowClean fb r) "Date" = Cell.dateVal d := by
  rw [rowClean_eq,
    lookup_mapRowCol_other _ _ (by decide) _ _,
    lookup_mapRowCol_other _ _ (by decide) _ _,
    lookup_mapRowCol_other _ _ (by decide) _ _,
    lookup_mapRowCol_other _ _ (by decide) _ _]
  cases h : r.find? (fun p => p.1 == "Date") with
  | none => exact Or.inl (lookup_mapRowCol_self_none _ _ _ h)
  | some p =>
    rw [lookup_mapRowCol_self_some _ _ _ p h]
    unfold cleanDateCell
    cases parse_date fb p.2 with
    | none => exact Or.inl rfl
    | some d => exact Or.inr ⟨d, rfl⟩

theorem lookup_rowClean_amount (fb : Cell → Option DateV) (r : FRow) :
    lookupCell (rowClean fb r) "Amount" = Cell.na
    ∨ ∃ q, lookupCell (rowClean fb r) "Amount" = Cell.num q := by
  rw [rowClean_eq,
    lookup_mapRowCol_other _ _ (by decide) _ _,
    lookup_mapRowCol_other _ _ (by decide) _ _,
    lookup_mapRowCol_other _ _ (by decide) _ _]
  cases h : (mapRowCol "Date" (cleanDateCell fb) r).find? (fun p => p.1 == "Amount") with
  | none => exact Or.inl (lookup_mapRowCol_self_none _ _ _ h)
  | some p =>
    rw [lookup_mapRowCol_self_some _ _ _ p h]
    exact Or.inr ⟨parse_amount p.2, rfl⟩

theorem lookup_rowClean_text (fb : Cell → Option DateV) (r : FRow) (c' : String)
    (hc : c' ∈ text_columns) (hpres : c' ∈ r.map Prod.fst) :
    ∃ s, lookupCell (rowClean fb r) c' = Cell.str s ∧ pyStrip s = s := by
  have hpres2 : ∀ (c : String) (g : Cell → Cell) (r0 : FRow), c' ∈ r0.map Prod.fst →
      c' ∈ (mapRowCol c g r0).map Prod.fst := by
    intro c g r0 h
    rwa [map_fst_mapRowCol]
  simp only [text_columns, List.mem_cons, List.not_mem_nil, or_false] at hc
  rcases hc with hc | hc | hc <;> subst hc
  · rw [rowClean_eq,
      lookup_mapRowCol_other _ _ (by decide) _ _,
      lookup_mapRowCol_other _ _ (by decide) _ _]
    obtain ⟨p, hp⟩ := find?_of_mem_fst _ "Description" (hpres2 _ _ _ (hpres2 _ _ _ hpres))
    rw [lookup_mapRowCol_self_some _ _ _ p hp]
    exact ⟨clean_text p.2, rfl, clean_text_trimmed p.2⟩
  · rw [rowClean_eq, lookup_mapRowCol_other _ _ (by decide) _ _]
    obtain ⟨p, hp⟩ := find?_of_mem_fst _ "Responsible"
      (hpres2 _ _ _ (hpres2 _ _ _ (hpres2 _ _ _ hpres)))
    rw [lookup_mapRowCol_self_some _ _ _ p hp]
    exact ⟨clean_text p.2, rfl, clean_text_trimmed p.2⟩
  · rw [rowClean_eq]
    obtain ⟨p, hp⟩ := find?_of_mem_fst _ "Card"
      (hpres2 _ _ _ (hpres2 _ _ _ (hpres2 _ _ _ (hpres2 _ _ _ hpres))))
    rw [lookup_mapRowCol_self_some _ _ _ p hp]
    exact ⟨clean_text p.2, rfl, clean_text_trimmed p.2⟩

theorem WF_renameCol (old new : String) (f : Frame) (h : WFframe f) :
    WFframe (renameCol old new f) := by
  unfold renameCol
  by_cases hm : old ∈ f.cols
  · rw [if_pos hm]
    intro r hr
    obtain ⟨r0, hr0, rfl⟩ := List.mem_map.mp hr
    rw [← h r0 hr0, List.map_map, List.map_map]
    apply List.map_congr_left
    intro p _
    by_cases hp : p.1 = old <;> simp [hp]
  · rw [if_neg hm]
    exact h

theorem WF_ensureCol (c : String) (f : Frame) (h : WFframe f) :
    WFframe (ensureCol c f) := by
  unfold ensureCol
  by_cases hm : c ∈ f.cols
  · rw [if_pos hm]
    exact h
  · rw [if_neg hm]
    intro r hr
    obtain ⟨r0, hr0, rfl⟩ := List.mem_map.mp hr
    rw [List.map_append, h r0 hr0]
    rfl

theorem WF_foldl_rename (l : List (String × String)) (f : Frame) (h : WFframe f) :
    WFframe (l.foldl (fun acc p => renameCol p.1 p.2 acc) f) := by
  induction l generalizing f with
  | nil => exact h
  | cons p t ih => exact ih _ (WF_renameCol p.1 p.2 f h)

theorem WF_foldl_ensure (l : List String) (f : Frame) (h : WFframe f) :
    WFframe (l.foldl (fun acc c => ensureCol c acc) f) := by
  induction l generalizing f with
  | nil => exact h
  | cons c t ih => exact ih _ (WF_ensureCol c f h)

theorem mem_cols_ensureCol_self (c : String) (f : Frame) : c ∈ (ensureCol c f).cols := by
  unfold ensureCol
  by_cases hm : c ∈ f.cols
  · rw [if_pos hm]
    exact hm
  · rw [if_neg hm]
    simp

theorem mem_cols_ensureCol_mono (c c' : String) (f : Frame) (h : c ∈ f.cols) :
    c ∈ (ensureCol c' f).cols := by
  unfold ensureCol
  by_cases hm : c' ∈ f.cols
  · rw [if_pos hm]
    exact h
  · rw [if_neg hm]
    simp [h]

theorem mem_cols_foldl_ensure_mono (l : List String) (f : Frame) (c : String)
    (h : c ∈ f.cols) : c ∈ (l.foldl (fun acc c => ensureCol c acc) f).cols := by
  induction l generalizing f with
  | nil => exact h
  | cons a t ih => exact ih _ (mem_cols_ensureCol_mono c a f h)

theorem mem_cols_foldl_ensure_self (l : List String) (f : Frame) :
    ∀ c ∈ l, c ∈ (l.foldl (fun acc c => ensureCol c acc) f).cols := by
  induction l generalizing f with
  | nil => intro c hc; cases hc
  | cons a t ih =>
    intro c hc
    rw [List.foldl_cons]
    rcases List.mem_cons.mp hc with rfl | hct
    · exact mem_cols_foldl_ensure_mono t _ c (mem_cols_ensureCol_self c f)
    · exact ih _ c hct

theorem text_sub_required : ∀ c ∈ text_columns, c ∈ required_columns := by decide

/-! ### Claim theorems -/

/-- C3: responsible assignment never overwrites a non-blank responsible
value, and applying `apply_responsible_rules` twice equals applying it
once. -/
theorem responsible_assignment_idempotent :
    (∀ r : Tx, blankResp r.responsible = false → assignRow r = r)
    ∧ (∀ t : List Tx,
        apply_responsible_rules (apply_responsible_rules t) = apply_responsible_rules t) := by
  refine ⟨assignRow_eq_self, ?_⟩
  intro t
  unfold apply_responsible_rules
  cases t with
  | nil => rfl
  | cons a l =>
    simp only [List.isEmpty_cons, Bool.false_eq_true, if_false, List.map_map]
    have : ((a :: l).map assignRow).isEmpty = false := by simp
    rw [this]
    simp only [Bool.false_eq_true, if_false, List.map_map]
    exact List.map_congr_left (fun x _ => assignRow_idem x)

/-- C3 witness: a row with a pre-existing responsible passes through, and
a concrete table is a fixed point after one application. -/
theorem responsible_assignment_idempotent_witness :
    assignRow ⟨⟨2024, 3, 1⟩, "x", 5, some "Maria", "9366"⟩
      = ⟨⟨2024, 3, 1⟩, "x", 5, some "Maria", "9366"⟩
    ∧ apply_responsible_rules (apply_responsible_rules
        [⟨⟨2024, 3, 1⟩, "x", 5, none, "***9366-VISA"⟩])
      = apply_responsible_rules [⟨⟨2024, 3, 1⟩, "x", 5, none, "***9366-VISA"⟩] :=
  ⟨responsible_assignment_idempotent.1 _ (by decide),
   responsible_assignment_idempotent.2 _⟩

/-- C10: `apply_responsible_rules` changes only the responsible column;
dates, descriptions, amounts, cards, row count and row order are
untouched. -/
theorem responsible_assignment_frame (t : List Tx) :
    (apply_responsible_rules t).map eraseResp = t.map eraseResp
    ∧ (apply_responsible_rules t).length = t.length := by
  unfold apply_responsible_rules
  cases t with
  | nil => exact ⟨rfl, rfl⟩
  | cons a l =>
    simp only [List.isEmpty_cons, Bool.false_eq_true, if_false, List.map_map,
      List.length_map]
    refine ⟨List.map_congr_left (fun x _ => ?_), trivial⟩
    cases x; rfl

/-- C4: for blank-responsible rows the ordered rule list is scanned with
substring containment and the first match wins, the default label is used
only when no key matches, and a card "***9366-VISA" gets the 9366 rule's
label. -/
theorem responsible_rule_precedence :
    (∀ (r : Tx) (n : Nat) (h : n < responsible_rules.length),
        blankResp r.responsible = true →
        strContains (pyStrip r.card) (responsible_rules.get ⟨n, h⟩).1 = true →
        (∀ p ∈ responsible_rules.take n, strContains (pyStrip r.card) p.1 = false) →
        assign_responsible r = (responsible_rules.get ⟨n, h⟩).2)
    ∧ (∀ r : Tx, blankResp r.responsible = true →
        (∀ p ∈ responsible_rules, strContains (pyStrip r.card) p.1 = false) →
        assign_responsible r = default_responsible)
    ∧ (∀ (d : DateV) (desc : String) (a : Rat),
        assign_responsible ⟨d, desc, a, some "", "***9366-VISA"⟩
          = "FIORELLA INFANTE AMORE") := by
  refine ⟨?_, ?_, fun d desc a => rfl⟩
  · intro r n h hb hc hprev
    unfold assign_responsible
    rw [if_pos hb]
    unfold firstMatch
    rw [find?_of_first (fun p => strContains (pyStrip r.card) p.1)
      responsible_rules n h hc hprev]
  · intro r hb hnone
    unfold assign_responsible
    rw [if_pos hb]
    unfold firstMatch
    rw [List.find?_eq_none.mpr (fun x hx => by simp [hnone x hx])]

theorem isFixed_fixedRow (m : Nat) (y : Int) (desc : String) (a : Rat) :
    isFixedInMonth m y (fixedRow ⟨y, m, 1⟩ desc a) = true := by
  simp [isFixedInMonth, fixedRow]

theorem fixedRowsFor_ne_nil (m : Nat) (y : Int) : fixedRowsFor m y ≠ [] := by
  simp [fixedRowsFor, fixed_expenses]

theorem vivienda_mem_fixedRowsFor (m : Nat) (y : Int) :
    fixedRow ⟨y, m, 1⟩ "Vivienda" 430000 ∈ fixedRowsFor m y := by
  simp [fixedRowsFor, fixed_expenses]

theorem inject_skip (m : Nat) (y : Int) (t : List Tx) (hne : t ≠ [])
    (hany : t.any (isFixedInMonth m y) = true) :
    inject_fixed_expenses m y t = t := by
  unfold inject_fixed_expenses
  rw [if_pos (by simp [hany, hne])]

theorem inject_nonskip (m : Nat) (y : Int) (t : List Tx)
    (h : ¬((!t.isEmpty && t.any (isFixedInMonth m y)) = true)) :
    inject_fixed_expenses m y t =
      if t.isEmpty then fixedRowsFor m y
      else List.insertionSort txLE (t ++ fixedRowsFor m y) := by
  unfold inject_fixed_expenses
  rw [if_neg h]

theorem monthDelta_spec (p c : Rat) :
    (p > 0 → monthDelta p c = (c - p) / p * 100)
    ∧ (p = 0 → c > 0 → monthDelta p c = 100)
    ∧ (p = 0 → c = 0 → monthDelta p c = 0)
    ∧ (p > 0 → c = 0 → monthDelta p c = -100) := by
  refine ⟨fun hp => ?_, fun hp hc => ?_, fun hp hc => ?_, fun hp hc => ?_⟩
  · unfold monthDelta; rw [if_pos hp]
  · unfold monthDelta
    rw [if_neg (by rw [hp]; exact lt_irrefl 0), if_pos ⟨hp, hc⟩]
  · unfold monthDelta
    rw [if_neg (by rw [hp]; exact lt_irrefl 0),
      if_neg (by rintro ⟨_, h⟩; rw [hc] at h; exact lt_irrefl 0 h),
      if_pos ⟨hp, hc⟩]
  · unfold monthDelta
    rw [if_pos hp, hc]
    have hp0 : p ≠ 0 := ne_of_gt hp
    field_simp

/-- C4 witness: the second rule (key 2081) fires when the first key does
not occur in the card string, and an unmatched card falls to the default. -/
theorem responsible_rule_precedence_witness :
    assign_responsible ⟨⟨2024, 1, 1⟩, "d", 1, none, "xx2081yy"⟩
      = "LUIS ESTEBAN OVIEDO MATAMOROS"
    ∧ assign_responsible ⟨⟨2024, 1, 1⟩, "d", 1, none, "zzz"⟩
      = "ALVARO FERNANDO OVIEDO MATAMOROS"
    ∧ assign_responsible ⟨⟨2024, 1, 1⟩, "d", 1, some "", "***9366-VISA"⟩
      = "FIORELLA INFANTE AMORE" :=
  ⟨responsible_rule_precedence.1 _ 1 (by decide) (by decide) (by decide) (by decide),
   responsible_rule_precedence.2.1 _ (by decide) (by decide),
   responsible_rule_precedence.2.2 ⟨2024, 1, 1⟩ "d" 1⟩

/-- C1: injecting fixed expenses twice for the same valid target (month,
year) equals injecting once, and a table already holding a "Gastos Fijos"
row dated in the target month is returned unchanged. -/
theorem inject_fixed_idempotent (m : Nat) (y : Int) (t : List Tx)
    (hm1 : 1 ≤ m) (hm2 : m ≤ 12) :
    inject_fixed_expenses m y (inject_fixed_expenses m y t)
      = inject_fixed_expenses m y t
    ∧ (∀ r ∈ t, isFixedInMonth m y r = true → inject_fixed_expenses m y t = t) := by
  constructor
  · by_cases hc : (!t.isEmpty && t.any (isFixedInMonth m y)) = true
    · have hskip : inject_fixed_expenses m y t = t := by
        unfold inject_fixed_expenses; rw [if_pos hc]
      rw [hskip, hskip]
    · rw [inject_nonskip m y t hc]
      by_cases he : t.isEmpty = true
      · rw [if_pos he]
        apply inject_skip
        · exact fixedRowsFor_ne_nil m y
        · exact List.any_eq_true.mpr
            ⟨_, vivienda_mem_fixedRowsFor m y, isFixed_fixedRow m y _ _⟩
      · rw [if_neg he]
        apply inject_skip
        · have hlen : (List.insertionSort txLE (t ++ fixedRowsFor m y)).length
              = t.length + 3 := by
            rw [List.length_insertionSort, List.length_append]
            simp [fixedRowsFor, fixed_expenses]
          intro hnil
          rw [hnil] at hlen
          simp at hlen
        · refine List.any_eq_true.mpr
            ⟨fixedRow ⟨y, m, 1⟩ "Vivienda" 430000, ?_, isFixed_fixedRow m y _ _⟩
          rw [List.mem_insertionSort]
          exact List.mem_append_right t (vivienda_mem_fixedRowsFor m y)
  · intro r hr hf
    exact inject_skip m y t (List.ne_nil_of_mem hr) (List.any_eq_true.mpr ⟨r, hr, hf⟩)

/-- C1 witness: a concrete March 2024 table is stable under a second
injection, and a table already holding a fixed row for March 2024 is
returned unchanged. -/
theorem inject_fixed_idempotent_witness :
    inject_fixed_expenses 3 2024 (inject_fixed_expenses 3 2024 sampleMarch)
      = inject_fixed_expenses 3 2024 sampleMarch
    ∧ inject_fixed_expenses 3 2024 partialFixedTable = partialFixedTable :=
  ⟨(inject_fixed_idempotent 3 2024 sampleMarch (by decide) (by decide)).1,
   (inject_fixed_idempotent 3 2024 partialFixedTable (by decide) (by decide)).2
     (fixedRow ⟨2024, 3, 5⟩ "Vivienda" 430000) (by decide) (by decide)⟩

/-- C2: the month-over-month delta of `calculate_kpis` follows the
edge-case ladder: formula for a positive previous total, 100 for a zero
previous and positive current total, 0 for both zero, and −100 for a
positive previous and zero current total. -/
theorem month_delta_cases (nowM : Nat) (nowY : Int) (t : List Tx) :
    (monthTotal (prevMonth nowM) (prevYear nowM nowY) t > 0 →
      (calculate_kpis nowM nowY t).month_delta =
        (monthTotal nowM nowY t - monthTotal (prevMonth nowM) (prevYear nowM nowY) t)
          / monthTotal (prevMonth nowM) (prevYear nowM nowY) t * 100)
    ∧ (monthTotal (prevMonth nowM) (prevYear nowM nowY) t = 0 →
        monthTotal nowM nowY t > 0 →
        (calculate_kpis nowM nowY t).month_delta = 100)
    ∧ (monthTotal (prevMonth nowM) (prevYear nowM nowY) t = 0 →
        monthTotal nowM nowY t = 0 →
        (calculate_kpis nowM nowY t).month_delta = 0)
    ∧ (monthTotal (prevMonth nowM) (prevYear nowM nowY) t > 0 →
        monthTotal nowM nowY t = 0 →
        (calculate_kpis nowM nowY t).month_delta = -100) := by
  cases t with
  | nil =>
    have hz : ∀ (m : Nat) (y : Int), monthTotal m y [] = 0 := fun _ _ => rfl
    refine ⟨fun hp => absurd hp (by rw [hz]; exact lt_irrefl 0), ?_, ?_, ?_⟩
    · intro _ hc
      exact absurd hc (by rw [hz]; exact lt_irrefl 0)
    · intro _ _; rfl
    · intro hp _
      exact absurd hp (by rw [hz]; exact lt_irrefl 0)
  | cons a l =>
    have hdelta : (calculate_kpis nowM nowY (a :: l)).month_delta =
        monthDelta (monthTotal (prevMonth nowM) (prevYear nowM nowY) (a :: l))
          (monthTotal nowM nowY (a :: l)) := by
      simp [calculate_kpis]
    rw [hdelta]
    have h := monthDelta_spec (monthTotal (prevMonth nowM) (prevYear nowM nowY) (a :: l))
      (monthTotal nowM nowY (a :: l))
    exact ⟨h.1, h.2.1, h.2.2.1, h.2.2.2⟩

/-- C2 witness: previous 0 and current 50000 gives 100, neither-month data
gives 0, and 100000 before 150000 gives 50. -/
theorem month_delta_cases_witness :
    (calculate_kpis 4 2024 aprilOnly).month_delta = 100
    ∧ (calculate_kpis 4 2024 janOnly).month_delta = 0
    ∧ (calculate_kpis 4 2024 marchApril).month_delta = 50 := by
  have hpa : monthTotal (prevMonth 4) (prevYear 4 2024) aprilOnly = 0 := by
    norm_num [monthTotal, inMonth, prevMonth, prevYear, aprilOnly]
  have hca : monthTotal 4 2024 aprilOnly = 50000 := by
    norm_num [monthTotal, inMonth, aprilOnly]
  have hpj : monthTotal (prevMonth 4) (prevYear 4 2024) janOnly = 0 := by
    norm_num [monthTotal, inMonth, prevMonth, prevYear, janOnly]
  have hcj : monthTotal 4 2024 janOnly = 0 := by
    norm_num [monthTotal, inMonth, janOnly]
  have hpm : monthTotal (prevMonth 4) (prevYear 4 2024) marchApril = 100000 := by
    norm_num [monthTotal, inMonth, prevMonth, prevYear, marchApril]
  have hcm : monthTotal 4 2024 marchApril = 150000 := by
    norm_num [monthTotal, inMonth, marchApril]
  refine ⟨?_, ?_, ?_⟩
  · exact (month_delta_cases 4 2024 aprilOnly).2.1 hpa (by rw [hca]; norm_num)
  · exact (month_delta_cases 4 2024 janOnly).2.2.1 hpj hcj
  · have h := (month_delta_cases 4 2024 marchApril).1 (by rw [hpm]; norm_num)
    rw [hpm, hcm] at h
    rw [h]
    norm_num

/-- C6 counterexample: a table holding only one of the three fixed
expenses for March 2024 triggers the skip guard, so after injection the
"Vehículo" template entry appears zero times, not exactly once. -/
theorem inject_fixed_exactly_once_counterexample :
    inject_fixed_expenses 3 2024 partialFixedTable = partialFixedTable
    ∧ (inject_fixed_expenses 3 2024 partialFixedTable).countP
        (fun r => decide (r = fixedRow ⟨2024, 3, 1⟩ "Vehículo" 230000)) = 0 := by
  constructor
  · decide
  · decide

/-- C6 (amended): when no "Gastos Fijos" row of the target month exists,
each template entry appears exactly once in the target month with the
first-day date, an empty table yields exactly the synthesized rows, and a
non-empty table yields a date-sorted permutation of the input plus the
synthesized rows; when such a row exists the table is returned unchanged. -/
theorem inject_fixed_guarantee (m : Nat) (y : Int) (t : List Tx)
    (hm1 : 1 ≤ m) (hm2 : m ≤ 12) :
    (t.any (isFixedInMonth m y) = true → inject_fixed_expenses m y t = t)
    ∧ (t.any (isFixedInMonth m y) = false →
        (t = [] → inject_fixed_expenses m y t = fixedRowsFor m y)
        ∧ (t ≠ [] →
            (inject_fixed_expenses m y t).Perm (t ++ fixedRowsFor m y)
            ∧ List.Pairwise txLE (inject_fixed_expenses m y t))
        ∧ (∀ e ∈ fixed_expenses,
            ((inject_fixed_expenses m y t).filter (inMonth m y)).countP
              (fun r => decide (r = fixedRow ⟨y, m, 1⟩ e.1 e.2)) = 1)) := by
  constructor
  · intro hany
    obtain ⟨r, hr, _⟩ := List.any_eq_true.mp hany
    exact inject_skip m y t (List.ne_nil_of_mem hr) hany
  · intro hany
    have hcond : ¬((!t.isEmpty && t.any (isFixedInMonth m y)) = true) := by
      simp [hany]
    have hres := inject_nonskip m y t hcond
    have hperm : (inject_fixed_expenses m y t).Perm (t ++ fixedRowsFor m y) := by
      rw [hres]
      by_cases he : t.isEmpty = true
      · rw [if_pos he]
        have : t = [] := by simpa using he
        rw [this, List.nil_append]
      · rw [if_neg he]
        exact List.perm_insertionSort txLE _
    refine ⟨?_, ?_, ?_⟩
    · intro ht
      rw [hres, ht]
      rfl
    · intro ht
      have he : ¬(t.isEmpty = true) := by simpa using ht
      rw [hres, if_neg he]
      exact ⟨List.perm_insertionSort txLE _, List.sorted_insertionSort txLE _⟩
    · intro e he
      rw [List.countP_filter, (hperm.countP_eq _), List.countP_append]
      have h0 : t.countP
          (fun r => decide (r = fixedRow ⟨y, m, 1⟩ e.1 e.2) && inMonth m y r) = 0 := by
        rw [List.countP_eq_zero]
        intro r hr hpred
        simp only [Bool.and_eq_true, decide_eq_true_eq] at hpred
        obtain ⟨hre, _⟩ := hpred
        have hfx : isFixedInMonth m y r = true := by
          rw [hre]; exact isFixed_fixedRow m y _ _
        have := List.any_eq_true.mpr ⟨r, hr, hfx⟩
        rw [hany] at this
        cases this
      rw [h0]
      simp only [fixed_expenses, List.mem_cons, List.not_mem_nil, or_false] at he
      rcases he with he | he | he <;> subst he <;>
        simp [fixedRowsFor, fixed_expenses, List.countP_cons, fixedRow,
          inMonth, Tx.mk.injEq]

/-- C6 witness: injecting into a concrete March 2024 table with no fixed
rows puts the "Vivienda" entry exactly once in the month, and an empty
table becomes exactly the synthesized rows. -/
theorem inject_fixed_guarantee_witness :
    ((inject_fixed_expenses 3 2024 sampleMarch).filter (inMonth 3 2024)).countP
        (fun r => decide (r = fixedRow ⟨2024, 3, 1⟩ "Vivienda" 430000)) = 1
    ∧ inject_fixed_expenses 3 2024 ([] : List Tx) = fixedRowsFor 3 2024 :=
  ⟨((inject_fixed_guarantee 3 2024 sampleMarch (by decide) (by decide)).2
      (by decide)).2.2 ("Vivienda", 430000) (by simp [fixed_expenses]),
   ((inject_fixed_guarantee 3 2024 [] (by decide) (by decide)).2 rfl).1 rfl⟩

/-- C8: an empty table yields all-zero KPIs with empty collections, and an
empty current-month subset yields zero average ticket and zero total with
no division performed. -/
theorem kpis_empty_safe (nowM : Nat) (nowY : Int) (t : List Tx) :
    calculate_kpis nowM nowY [] =
      { total_amount := 0, transaction_count := 0, average_ticket := 0,
        month_delta := 0, top_merchants := [], spending_by_responsible := [] }
    ∧ (t.filter (inMonth nowM nowY) = [] →
        (calculate_kpis nowM nowY t).average_ticket = 0
        ∧ (calculate_kpis nowM nowY t).total_amount = 0) := by
  refine ⟨rfl, fun hcur => ?_⟩
  cases t with
  | nil => exact ⟨rfl, rfl⟩
  | cons a l =>
    have htot : monthTotal nowM nowY (a :: l) = 0 := by
      unfold monthTotal
      rw [hcur]
      rfl
    constructor
    · simp [calculate_kpis, hcur]
    · simp [calculate_kpis, htot]

/-- C8 witness: a table whose rows lie outside April 2024 has zero average
ticket and zero total for an April 2024 reference time. -/
theorem kpis_empty_safe_witness :
    (calculate_kpis 4 2024 janOnly).average_ticket = 0
    ∧ (calculate_kpis 4 2024 janOnly).total_amount = 0 :=
  (kpis_empty_safe 4 2024 janOnly).2 (by decide)

/-- C9: string dates run through the fixed format priority list ISO, then
day-first slash, then month-first slash, then day-first dash, first
success winning; on total failure the permissive fallback decides; the
ambiguous "03/04/2024" resolves day-first and "03/15/2024" month-first. -/
theorem date_format_priority (fb : Cell → Option DateV) :
    parse_date fb (Cell.str "03/04/2024") = some ⟨2024, 4, 3⟩
    ∧ parse_date fb (Cell.str "03/15/2024") = some ⟨2024, 3, 15⟩
    ∧ (∀ (s : String) (d : DateV), strptime3 '-' DOrder.ymd s = some d →
        parse_date fb (Cell.str s) = some d)
    ∧ (∀ (s : String) (d : DateV), strptime3 '-' DOrder.ymd s = none →
        strptime3 '/' DOrder.dmy s = some d →
        parse_date fb (Cell.str s) = some d)
    ∧ (∀ (s : String) (d : DateV), strptime3 '-' DOrder.ymd s = none →
        strptime3 '/' DOrder.dmy s = none →
        strptime3 '/' DOrder.mdy s = some d →
        parse_date fb (Cell.str s) = some d)
    ∧ (∀ (s : String) (d : DateV), strptime3 '-' DOrder.ymd s = none →
        strptime3 '/' DOrder.dmy s = none →
        strptime3 '/' DOrder.mdy s = none →
        strptime3 '-' DOrder.dmy s = some d →
        parse_date fb (Cell.str s) = some d)
    ∧ (∀ s : String, tryFormats s = none →
        parse_date fb (Cell.str s) = fb (Cell.str s)) := by
  refine ⟨rfl, rfl, ?_, ?_, ?_, ?_, ?_⟩
  · intro s d h1
    simp [parse_date, tryFormats, h1]
  · intro s d h1 h2
    simp [parse_date, tryFormats, h1, h2]
  · intro s d h1 h2 h3
    simp [parse_date, tryFormats, h1, h2, h3]
  · intro s d h1 h2 h3 h4
    simp [parse_date, tryFormats, h1, h2, h3, h4]
  · intro s h
    simp [parse_date, h]

/-- C5 counterexample: `clean_data` does not drop unrecognized input
columns, so an input with an extra "Foo" column yields a non-empty output
table still carrying "Foo" — not exactly the five canonical columns. -/
theorem clean_data_five_columns_counterexample :
    "Foo" ∈ (clean_data noFallback frameWithExtra).cols
    ∧ "Foo" ∉ required_columns
    ∧ (clean_data noFallback frameWithExtra).rows ≠ [] := by
  refine ⟨by decide, by decide, by decide⟩

/-- C5 (amended): for a well-formed non-empty tabular input, the output of
`clean_data` contains the five canonical columns (unrecognized input
columns are preserved, and an empty input yields a frame with no columns),
every output row has a parsed non-null date, a nonzero numeric amount, and
trimmed string text columns. -/
theorem clean_data_contract (fb : Cell → Option DateV) (f : Frame)
    (hwf : WFframe f) (hrows : f.rows ≠ []) (hcols : f.cols ≠ []) :
    (∀ c ∈ required_columns, c ∈ (clean_data fb f).cols)
    ∧ (∀ r ∈ (clean_data fb f).rows,
        (∃ d, lookupCell r "Date" = Cell.dateVal d)
        ∧ (∃ q, lookupCell r "Amount" = Cell.num q ∧ q ≠ 0)
        ∧ (∀ c ∈ text_columns, ∃ s, lookupCell r c = Cell.str s ∧ pyStrip s = s)) := by
  have hcond : ¬((f.rows.isEmpty || f.cols.isEmpty) = true) := by
    simp [List.isEmpty_iff, hrows, hcols]
  have hcd : clean_data fb f =
      { cols := (ensureStage (renameStage f)).cols,
        rows := (((ensureStage (renameStage f)).rows.map (rowClean fb)).filter
          keepNonNull).filter amountNeZero } := by
    unfold clean_data
    rw [if_neg hcond]
  obtain ⟨F2, hE⟩ : ∃ F2, ensureStage (renameStage f) = F2 := ⟨_, rfl⟩
  rw [hE] at hcd
  have hwf2 : WFframe F2 := by
    rw [← hE]
    exact WF_foldl_ensure required_columns _ (WF_foldl_rename column_mapping f hwf)
  have hcolsF2 : ∀ c ∈ required_columns, c ∈ F2.cols := by
    rw [← hE]
    exact mem_cols_foldl_ensure_self required_columns (renameStage f)
  constructor
  · intro c hc
    rw [hcd]
    exact hcolsF2 c hc
  · intro r hr
    rw [hcd] at hr
    simp only [List.mem_filter] at hr
    obtain ⟨⟨hrm, hkeep⟩, hnz⟩ := hr
    obtain ⟨r2, hr2, rfl⟩ := List.mem_map.mp hrm
    refine ⟨?_, ?_, ?_⟩
    · rcases lookup_rowClean_date fb r2 with hna | hd
      · exfalso
        simp [keepNonNull, hna] at hkeep
      · exact hd
    · rcases lookup_rowClean_amount fb r2 with hna | ⟨q, hq⟩
      · exfalso
        simp [keepNonNull, hna] at hkeep
      · refine ⟨q, hq, ?_⟩
        unfold amountNeZero at hnz
        rw [hq] at hnz
        simpa using hnz
    · intro c hc
      have hreq : c ∈ required_columns := text_sub_required c hc
      have hpres : c ∈ r2.map Prod.fst := by
        rw [hwf2 r2 hr2]
        exact hcolsF2 c hreq
      exact lookup_rowClean_text fb r2 c hc hpres

/-- C5 witness: the contract applied to a concrete well-formed frame: the
"Date" column is present and the concrete surviving row has a parsed date,
a nonzero amount, and a trimmed description. -/
theorem clean_data_contract_witness :
    "Date" ∈ (clean_data noFallback frameWithExtra).cols
    ∧ (∃ d, lookupCell cleanedExtraRow "Date" = Cell.dateVal d)
    ∧ (∃ q, lookupCell cleanedExtraRow "Amount" = Cell.num q ∧ q ≠ 0)
    ∧ (∃ s, lookupCell cleanedExtraRow "Description" = Cell.str s ∧ pyStrip s = s) := by
  have h := clean_data_contract noFallback frameWithExtra
    (by unfold WFframe; decide) (by decide) (by decide)
  have hrow := h.2 cleanedExtraRow (by decide)
  exact ⟨h.1 "Date" (by decide), hrow.1, hrow.2.1, hrow.2.2 "Description" (by decide)⟩

/-- C7: every row of the normalized output carries a nonzero numeric
amount (rows whose amount cell parses to zero — missing, unparseable or
literally zero — are all dropped), and on a concrete frame with three
zero-parsing rows and one valid row exactly one row survives. -/
theorem zero_amount_rows_dropped (fb : Cell → Option DateV) (f : Frame) :
    (∀ r ∈ (clean_data fb f).rows, ∃ q, lookupCell r "Amount" = Cell.num q ∧ q ≠ 0)
    ∧ (clean_data noFallback frameWithZeros).rows = [cleanedZeroRow] := by
  constructor
  · intro r hr
    by_cases hempty : ((f.rows.isEmpty || f.cols.isEmpty) = true)
    · unfold clean_data at hr
      rw [if_pos hempty] at hr
      exact absurd hr (List.not_mem_nil r)
    · have hcd : clean_data fb f =
          { cols := (ensureStage (renameStage f)).cols,
            rows := (((ensureStage (renameStage f)).rows.map (rowClean fb)).filter
              keepNonNull).filter amountNeZero } := by
        unfold clean_data
        rw [if_neg hempty]
      obtain ⟨F2, hE⟩ : ∃ F2, ensureStage (renameStage f) = F2 := ⟨_, rfl⟩
      rw [hE] at hcd
      rw [hcd] at hr
      simp only [List.mem_filter] at hr
      obtain ⟨⟨hrm, hkeep⟩, hnz⟩ := hr
      obtain ⟨r2, hr2, rfl⟩ := List.mem_map.mp hrm
      rcases lookup_rowClean_amount fb r2 with hna | ⟨q, hq⟩
      · exfalso
        simp [keepNonNull, hna] at hkeep
      · refine ⟨q, hq, ?_⟩
        unfold amountNeZero at hnz
        rw [hq] at hnz
        simpa using hnz
  · decide

/-- C7 witness: the surviving row of the concrete zero-amount frame indeed
carries the nonzero parsed amount 7000. -/
theorem zero_amount_rows_dropped_witness :
    ∃ q, lookupCell cleanedZeroRow "Amount" = Cell.num q ∧ q ≠ 0 :=
  (zero_amount_rows_dropped noFallback frameWithZeros).1 cleanedZeroRow (by decide)

/-- C9 witness: concrete parses through the priority list with a failing
fallback, including a null result when every pattern fails. -/
theorem date_format_priority_witness :
    parse_date noFallback (Cell.str "03/04/2024") = some ⟨2024, 4, 3⟩
    ∧ parse_date noFallback (Cell.str "2024-05-06") = some ⟨2024, 5, 6⟩
    ∧ parse_date noFallback (Cell.str "garbage") = none :=
  ⟨(date_format_priority noFallback).1,
   (date_format_priority noFallback).2.2.1 "2024-05-06" ⟨2024, 5, 6⟩ (by decide),
   by

     have h := (date_format_priority noFallback).2.2.2.2.2.2 "garbage" (by decide)
     simpa [noFallback] using h⟩

end HomeSpend
